import Mathlib

/-!
Verification of the external-data aggregation core of the precision-farm
repository (`src/main.py`, class `EuropeanAgriDataService`).

The embedding models:
* JSON payloads (`JsonVal`) — the values produced by `response.json()`;
* the per-instance cache `self.cache`, a dictionary from string keys to
  `{"timestamp": datetime, "data": payload}` entries, as an association
  list with first-match lookup and prepend-overwrite insertion;
* the clock: `datetime.now()` is passed in explicitly as an integer `now`
  (seconds); one instant per fetcher invocation;
* the network: `requests.get(url)` is an oracle `String → UpstreamOutcome`
  mapping the requested URL to either a raised exception (`netError`) or an
  HTTP response carrying a status code and a body that either parses as
  JSON (`Except.ok`) or makes `response.json()` raise (`Except.error`);
* the four fetchers `get_fsdn_data`, `get_fast_platform_data`,
  `get_market_prices`, `get_weather_data`, transcribed branch by branch.
  Python returns only the payload; the embedding additionally records which
  branch produced it (`FetchStatus`: cache hit / fetched from upstream /
  fallback on exception), which is the spec's `FetchResult.status`.
-/

set_option autoImplicit false

namespace PrecisionFarm

/-- A JSON value, the result of `response.json()` and the shape of every
payload handled by `EuropeanAgriDataService`. Arrays and objects are
encoded as constructor chains (`arrCons`/`objCons`) so that equality is
derivable; the smart constructors `JsonVal.arr` and `JsonVal.obj` below
build them from lists. Numbers are modelled as integers; no claim depends
on fractional numerics. -/
inductive JsonVal where
  | null : JsonVal
  | str (s : String) : JsonVal
  | num (n : Int) : JsonVal
  | arrNil : JsonVal
  | arrCons (head : JsonVal) (tail : JsonVal) : JsonVal
  | objNil : JsonVal
  | objCons (key : String) (val : JsonVal) (tail : JsonVal) : JsonVal
deriving Repr, DecidableEq

/-- A JSON array built from a list of elements. -/
def JsonVal.arr : List JsonVal → JsonVal
  | [] => .arrNil
  | x :: xs => .arrCons x (JsonVal.arr xs)

/-- A JSON object built from a list of (key, value) fields. -/
def JsonVal.obj : List (String × JsonVal) → JsonVal
  | [] => .objNil
  | (k, v) :: rest => .objCons k v (JsonVal.obj rest)

/-- Top-level field lookup on a JSON object (Python `d.get(key)` /
`d[key]`): the value of the first field named `k`; `none` on a non-object
or a missing key. -/
def JsonVal.getField : JsonVal → String → Option JsonVal
  | .objCons key v rest, k => if key = k then some v else rest.getField k
  | _, _ => none

/-- One entry of `self.cache`: `{"timestamp": datetime.now(), "data": data}`
(src/main.py lines 41-45). Timestamps are integers (seconds). -/
structure CacheEntry where
  timestamp : Int
  data : JsonVal
deriving Repr, DecidableEq

/-- `self.cache`, a Python dict keyed by strings. Modelled as an
association list; lookup returns the first match and insertion prepends,
so an insert overwrites the previous binding for its key, exactly as a
dict assignment does. -/
def Cache := List (String × CacheEntry)

instance : Repr Cache := inferInstanceAs (Repr (List (String × CacheEntry)))
instance : DecidableEq Cache := inferInstanceAs (DecidableEq (List (String × CacheEntry)))

/-- Dict membership / read: the entry currently bound to `key`, if any. -/
def Cache.find : Cache → String → Option CacheEntry
  | [], _ => none
  | (k, e) :: rest, key => if k = key then some e else Cache.find rest key

/-- Dict assignment `self.cache[key] = entry`: binds `key` to `entry`,
shadowing (hence overwriting) any previous binding. -/
def Cache.insert (c : Cache) (key : String) (e : CacheEntry) : Cache :=
  (key, e) :: c

/-- `self.cache_duration = timedelta(hours=24)` (line 39), in seconds. -/
def cacheDuration : Int := 24 * 60 * 60

/-- `self._cache_data(key, data)` (lines 41-45): store the payload under
`key` with the current timestamp, overwriting any existing entry. -/
def cache_data (c : Cache) (now : Int) (key : String) (data : JsonVal) : Cache :=
  c.insert key { timestamp := now, data := data }

/-- `self._is_cache_valid(key)` (lines 47-49):
`key in self.cache and datetime.now() - self.cache[key]["timestamp"] < self.cache_duration`. -/
def is_cache_valid (c : Cache) (now : Int) (key : String) : Bool :=
  match c.find key with
  | some e => decide (now - e.timestamp < cacheDuration)
  | none => false

/-- `self.cache[key]["data"]`, read only under `_is_cache_valid key`, in
which case the key is present; the `null` default is unreachable. -/
def cacheData (c : Cache) (key : String) : JsonVal :=
  match c.find key with
  | some e => e.data
  | none => JsonVal.null

/-- The result of `response.json()` on a received HTTP response: either the
body parses as JSON, or the call raises a decode error. -/
inductive JsonBody where
  | ok (data : JsonVal) : JsonBody
  | error (msg : String) : JsonBody
deriving Repr, DecidableEq

/-- Outcome of one `requests.get(url)` call followed by `response.json()`:
either the request itself raises (`netError`, carrying `str(e)`), or a
response arrives with an HTTP status code and a body that either parses as
JSON or makes `response.json()` raise (carrying the decode error message).
Note `requests.get` does NOT raise on a non-success status code. -/
inductive UpstreamOutcome where
  | response (statusCode : Nat) (body : JsonBody) : UpstreamOutcome
  | netError (msg : String) : UpstreamOutcome
deriving Repr, DecidableEq

/-- The error message of a failed upstream interaction, `none` when the
body parsed successfully (regardless of status code). -/
def UpstreamOutcome.errMsg : UpstreamOutcome → Option String
  | .response _ (.ok _) => none
  | .response _ (.error m) => some m
  | .netError m => some m

/-- Which branch of a fetcher produced the returned payload: the spec's
`FetchResult.status` (Hit / Fetched / Fallback). -/
inductive FetchStatus where
  | hit : FetchStatus
  | fetched : FetchStatus
  | fallback : FetchStatus
deriving Repr, DecidableEq

/-- The result of one fetcher invocation: the returned payload, the branch
that produced it, and the cache after the call (`self.cache` is the only
state the fetchers touch). -/
structure FetchResult where
  status : FetchStatus
  data : JsonVal
  cache : Cache
deriving Repr, DecidableEq

/-- `DATA_SOURCES["fsdn"]` request URL for a region (line 57). -/
def fsdnUrl (region : String) : String :=
  "https://agriculture.ec.europa.eu/api/fsdn/region/" ++ region

/-- `DATA_SOURCES["fast_platform"]` request URL (lines 74-77; the base
ends in a slash, so the code produces a double slash). -/
def fastUrl (region : String) : String :=
  "https://fastplatform.eu/api/v1//agricultural-data?region=" ++ region

/-- `DATA_SOURCES["agri_prices"]` request URL (line 93). -/
def pricesUrl : String :=
  "https://agridata.ec.europa.eu/api/v1/prices"

/-- The weather request URL (lines 109-111): the f-string interpolates the
coordinates and `OPENWEATHER_API_KEY`; a missing key (Python `None`)
renders as the literal string `None`. -/
def weatherUrl (apiKey : Option String) (lat lon : String) : String :=
  "http://api.openweathermap.org/data/2.5/weather?lat=" ++ lat ++ "&lon=" ++ lon
    ++ "&appid=" ++ (match apiKey with | some k => k | none => "None") ++ "&units=metric"

/-- The fsdn fallback literal (lines 62-66): note the three metrics are
nested under a top-level `sustainability_metrics` key. -/
def fsdnFallback : JsonVal :=
  .obj [("sustainability_metrics", .obj
    [("soil_health", .str "medium"),
     ("water_efficiency", .str "high"),
     ("biodiversity", .str "medium")])]

/-- The FaST-platform fallback literal (lines 82-85). -/
def fastFallback : JsonVal :=
  .obj [("soil_nutrients", .str "moderate"),
        ("recommended_practices", .arr [.str "crop_rotation", .str "minimum_tillage"])]

/-- The market-price fallback literal (lines 98-101). -/
def pricesFallback : JsonVal :=
  .obj [("Wheat", .obj [("price", .num 250), ("unit", .str "EUR/tonne")]),
        ("Barley", .obj [("price", .num 220), ("unit", .str "EUR/tonne")])]

/-- The weather fallback literal (line 116): `{"temp": None, "humidity":
None, "error": str(e)}` with the caught exception's message. -/
def weatherFallback (msg : String) : JsonVal :=
  .obj [("temp", .null), ("humidity", .null), ("error", .str msg)]

/-- `get_fsdn_data(region)` (lines 51-66): return the cached payload when
the entry for `"fsdn_" + region` is valid; otherwise GET the fsdn URL,
parse, cache and return the body; the bare `except:` turns any exception
into the fixed fallback, which is returned WITHOUT caching. -/
def get_fsdn_data (c : Cache) (now : Int) (region : String)
    (http : String → UpstreamOutcome) : FetchResult :=
  let key := "fsdn_" ++ region
  if is_cache_valid c now key then
    { status := .hit, data := cacheData c key, cache := c }
  else
    match http (fsdnUrl region) with
    | .response _ (.ok data) =>
        { status := .fetched, data := data, cache := cache_data c now key data }
    | .response _ (.error _) =>
        { status := .fallback, data := fsdnFallback, cache := c }
    | .netError _ =>
        { status := .fallback, data := fsdnFallback, cache := c }

/-- `get_fast_platform_data(region)` (lines 68-85), same shape with key
`"fast_" + region` and the FaST fallback. -/
def get_fast_platform_data (c : Cache) (now : Int) (region : String)
    (http : String → UpstreamOutcome) : FetchResult :=
  let key := "fast_" ++ region
  if is_cache_valid c now key then
    { status := .hit, data := cacheData c key, cache := c }
  else
    match http (fastUrl region) with
    | .response _ (.ok data) =>
        { status := .fetched, data := data, cache := cache_data c now key data }
    | .response _ (.error _) =>
        { status := .fallback, data := fastFallback, cache := c }
    | .netError _ =>
        { status := .fallback, data := fastFallback, cache := c }

/-- `get_market_prices()` (lines 87-101), keyed by the constant `"prices"`. -/
def get_market_prices (c : Cache) (now : Int)
    (http : String → UpstreamOutcome) : FetchResult :=
  let key := "prices"
  if is_cache_valid c now key then
    { status := .hit, data := cacheData c key, cache := c }
  else
    match http pricesUrl with
    | .response _ (.ok data) =>
        { status := .fetched, data := data, cache := cache_data c now key data }
    | .response _ (.error _) =>
        { status := .fallback, data := pricesFallback, cache := c }
    | .netError _ =>
        { status := .fallback, data := pricesFallback, cache := c }

/-- `get_weather_data(lat, lon)` (lines 103-116), keyed by
`"weather_{lat}_{lon}"`; `except Exception as e` returns the weather
fallback carrying `str(e)`, without caching. The coordinates appear only
through their string rendering, so they are taken as strings. -/
def get_weather_data (apiKey : Option String) (c : Cache) (now : Int)
    (lat lon : String) (http : String → UpstreamOutcome) : FetchResult :=
  let key := "weather_" ++ lat ++ "_" ++ lon
  if is_cache_valid c now key then
    { status := .hit, data := cacheData c key, cache := c }
  else
    match http (weatherUrl apiKey lat lon) with
    | .response _ (.ok data) =>
        { status := .fetched, data := data, cache := cache_data c now key data }
    | .response _ (.error m) =>
        { status := .fallback, data := weatherFallback m, cache := c }
    | .netError m =>
        { status := .fallback, data := weatherFallback m, cache := c }

/-- The spec's four source kinds, one per fetcher. -/
inductive SourceKind where
  | sustainability : SourceKind
  | farmPractice : SourceKind
  | marketPrice : SourceKind
  | weather : SourceKind
deriving Repr, DecidableEq

/-- A request context: the region name and the (string-rendered)
coordinates a call site supplies to the fetchers. -/
structure ReqCtx where
  region : String
  lat : String
  lon : String
deriving Repr, DecidableEq

/-- The cache key each fetcher derives from its parameters (the spec's
`SourceKey`): `"fsdn_" + region`, `"fast_" + region`, `"prices"`,
`"weather_{lat}_{lon}"`. -/
def sourceKey (ctx : ReqCtx) : SourceKind → String
  | .sustainability => "fsdn_" ++ ctx.region
  | .farmPractice => "fast_" ++ ctx.region
  | .marketPrice => "prices"
  | .weather => "weather_" ++ ctx.lat ++ "_" ++ ctx.lon

/-- The URL each fetcher requests on a cache miss. -/
def sourceUrl (apiKey : Option String) (ctx : ReqCtx) : SourceKind → String
  | .sustainability => fsdnUrl ctx.region
  | .farmPractice => fastUrl ctx.region
  | .marketPrice => pricesUrl
  | .weather => weatherUrl apiKey ctx.lat ctx.lon

/-- Each fetcher's fixed fallback payload (the message parameter is used
only by the weather fetcher, which embeds `str(e)`). -/
def fallbackData (msg : String) : SourceKind → JsonVal
  | .sustainability => fsdnFallback
  | .farmPractice => fastFallback
  | .marketPrice => pricesFallback
  | .weather => weatherFallback msg

/-- Dispatch to the fetcher of a source kind: the spec's
`resolve(key, requestContext)`. -/
def resolveSource (apiKey : Option String) (c : Cache) (now : Int)
    (ctx : ReqCtx) (src : SourceKind) (http : String → UpstreamOutcome) : FetchResult :=
  match src with
  | .sustainability => get_fsdn_data c now ctx.region http
  | .farmPractice => get_fast_platform_data c now ctx.region http
  | .marketPrice => get_market_prices c now http
  | .weather => get_weather_data apiKey c now ctx.lat ctx.lon http

/-- A scheduling event of one aggregation call: a fetch coroutine being
dispatched, or running to completion. -/
inductive Ev where
  | dispatch (src : SourceKind) : Ev
  | complete (src : SourceKind) : Ev
deriving Repr, DecidableEq

/-- The result of one aggregation call: one (source, status, payload)
entry per requested source, the final cache, and the scheduling trace. -/
structure AggResult where
  bundle : List (SourceKind × FetchStatus × JsonVal)
  cache : Cache
  trace : List Ev
deriving Repr, DecidableEq

/-- The aggregation call sites (src/main.py lines 384-387 and 605-612):
one fetcher invocation per requested source, each issued as a separate
blocking `asyncio.run(...)` statement. `asyncio.run` starts its coroutine
and runs it to completion before returning, so each source's fetch is
dispatched only after the previous one has completed; the events of each
fetch are recorded in the trace in that order. The cache threads from one
fetch to the next; the payloads are collected into the response bundle. -/
def aggregate (apiKey : Option String) (c : Cache) (now : Int) (ctx : ReqCtx)
    (http : String → UpstreamOutcome) : List SourceKind → AggResult
  | [] => { bundle := [], cache := c, trace := [] }
  | src :: rest =>
      let r := resolveSource apiKey c now ctx src http
      let tail := aggregate apiKey r.cache now ctx http rest
      { bundle := (src, r.status, r.data) :: tail.bundle,
        cache := tail.cache,
        trace := Ev.dispatch src :: Ev.complete src :: tail.trace }

/-- Whether a trace is a concurrent fan-out-join: every fetch is dispatched
before any fetch completes (no dispatch occurs after a completion). -/
def fanOutJoin : Bool → List Ev → Bool
  | _, [] => true
  | seenComplete, Ev.dispatch _ :: rest => !seenComplete && fanOutJoin seenComplete rest
  | _, Ev.complete _ :: rest => fanOutJoin true rest

/-- The common shape of all four fetchers: consult the cache under `key`;
on a valid entry return it; otherwise request `url` and either cache and
return the parsed body or return the fallback built from the error
message, leaving the cache untouched. -/
def fetchStep (key url : String) (fb : String → JsonVal) (c : Cache) (now : Int)
    (http : String → UpstreamOutcome) : FetchResult :=
  if is_cache_valid c now key then
    { status := .hit, data := cacheData c key, cache := c }
  else
    match http url with
    | .response _ (.ok data) =>
        { status := .fetched, data := data, cache := cache_data c now key data }
    | .response _ (.error m) =>
        { status := .fallback, data := fb m, cache := c }
    | .netError m =>
        { status := .fallback, data := fb m, cache := c }

theorem resolveSource_eq_fetchStep (apiKey : Option String) (c : Cache) (now : Int)
    (ctx : ReqCtx) (src : SourceKind) (http : String → UpstreamOutcome) :
    resolveSource apiKey c now ctx src http
      = fetchStep (sourceKey ctx src) (sourceUrl apiKey ctx src)
          (fun m => fallbackData m src) c now http := by
  cases src <;> rfl

theorem find_insert_self (c : Cache) (k : String) (e : CacheEntry) :
    (c.insert k e).find k = some e := by
  simp [Cache.insert, Cache.find]

theorem find_insert_ne (c : Cache) (k k' : String) (e : CacheEntry) (h : k' ≠ k) :
    (c.insert k e).find k' = c.find k' := by
  simp [Cache.insert, Cache.find, Ne.symm h]

/-- Exhaustive characterization of one fetcher invocation: a valid cache
entry yields a Hit and leaves the cache alone; otherwise a parsed body
yields a Fetched result cached under the key, and any failure yields the
fallback with the cache untouched. -/
theorem fetchStep_cases (key url : String) (fb : String → JsonVal) (c : Cache) (now : Int)
    (http : String → UpstreamOutcome) :
    (is_cache_valid c now key = true ∧
       fetchStep key url fb c now http
         = { status := .hit, data := cacheData c key, cache := c }) ∨
    (is_cache_valid c now key = false ∧ ∃ s d, http url = .response s (.ok d) ∧
       fetchStep key url fb c now http
         = { status := .fetched, data := d, cache := cache_data c now key d }) ∨
    (is_cache_valid c now key = false ∧ ∃ m, (http url).errMsg = some m ∧
       fetchStep key url fb c now http
         = { status := .fallback, data := fb m, cache := c }) := by
  cases hv : is_cache_valid c now key with
  | true =>
      exact Or.inl ⟨rfl, by simp [fetchStep, hv]⟩
  | false =>
      cases hu : http url with
      | response s b =>
          cases b with
          | ok d =>
              exact Or.inr (Or.inl ⟨rfl, s, d, rfl, by simp [fetchStep, hv, hu]⟩)
          | error m =>
              exact Or.inr (Or.inr ⟨rfl, m, by simp [UpstreamOutcome.errMsg],
                by simp [fetchStep, hv, hu]⟩)
      | netError m =>
          exact Or.inr (Or.inr ⟨rfl, m, by simp [UpstreamOutcome.errMsg],
            by simp [fetchStep, hv, hu]⟩)

theorem fetchStep_status_hit_iff (key url : String) (fb : String → JsonVal) (c : Cache)
    (now : Int) (http : String → UpstreamOutcome) :
    (fetchStep key url fb c now http).status = .hit ↔ is_cache_valid c now key = true := by
  rcases fetchStep_cases key url fb c now http with ⟨hv, he⟩ | ⟨hv, _, _, _, he⟩ | ⟨hv, _, _, he⟩ <;>
    rw [he] <;> simp [hv]

/-- Once invalid, an entry stays invalid at any later instant (its age only
grows); absence also persists. -/
theorem is_cache_valid_false_mono (c : Cache) (now now' : Int) (k : String)
    (h : is_cache_valid c now k = false) (hle : now ≤ now') :
    is_cache_valid c now' k = false := by
  unfold is_cache_valid at h ⊢
  cases hf : c.find k with
  | none => rfl
  | some e =>
      rw [hf] at h
      simp only [decide_eq_false_iff_not, not_lt] at h ⊢
      omega

theorem is_cache_valid_congr (c₁ c₂ : Cache) (now : Int) (k : String)
    (h : c₁.find k = c₂.find k) :
    is_cache_valid c₁ now k = is_cache_valid c₂ now k := by
  unfold is_cache_valid
  rw [h]

theorem cacheData_congr (c₁ c₂ : Cache) (k : String)
    (h : c₁.find k = c₂.find k) : cacheData c₁ k = cacheData c₂ k := by
  unfold cacheData
  rw [h]

/-- A fetch reads the cache only at its own key: two caches agreeing there
produce the same status and payload. -/
theorem fetchStep_congr (key url : String) (fb : String → JsonVal) (c₁ c₂ : Cache)
    (now : Int) (http : String → UpstreamOutcome)
    (h : c₁.find key = c₂.find key) :
    (fetchStep key url fb c₁ now http).status = (fetchStep key url fb c₂ now http).status ∧
    (fetchStep key url fb c₁ now http).data = (fetchStep key url fb c₂ now http).data := by
  have hv := is_cache_valid_congr c₁ c₂ now key h
  have hd := cacheData_congr c₁ c₂ key h
  unfold fetchStep
  rw [hv, hd]
  cases hvv : is_cache_valid c₂ now key with
  | true => simp
  | false =>
      simp only [Bool.false_eq_true, if_false]
      cases http url with
      | response s b => cases b <;> simp
      | netError m => simp

/-- A fetch writes the cache only at its own key. -/
theorem fetchStep_frame (key url : String) (fb : String → JsonVal) (c : Cache)
    (now : Int) (http : String → UpstreamOutcome) (k : String) (hk : k ≠ key) :
    (fetchStep key url fb c now http).cache.find k = c.find k := by
  rcases fetchStep_cases key url fb c now http with ⟨_, he⟩ | ⟨_, s, d, _, he⟩ | ⟨_, m, _, he⟩
  · rw [he]
  · simp only [he]
    simpa [cache_data] using find_insert_ne c key k { timestamp := now, data := d } hk
  · rw [he]

/-- C10: put/get round trip — immediately after `_cache_data(key, data)`,
with a non-decreasing clock still inside the positive 24-hour TTL, the
validity check accepts the key and the stored entry holds exactly the
written payload and timestamp, whatever was previously bound to the key. -/
theorem cache_put_then_get_valid (c : Cache) (k : String) (d : JsonVal) (t t' : Int)
    (_hle : t ≤ t') (hfresh : t' - t < cacheDuration) :
    is_cache_valid (cache_data c t k d) t' k = true ∧
    (cache_data c t k d).find k = some { timestamp := t, data := d } := by
  have hf : (cache_data c t k d).find k = some { timestamp := t, data := d } :=
    find_insert_self c k { timestamp := t, data := d }
  refine ⟨?_, hf⟩
  unfold is_cache_valid
  rw [hf]
  simpa using hfresh

theorem cache_put_then_get_valid_witness :
    is_cache_valid (cache_data [] 0 "prices" pricesFallback) 3600 "prices" = true ∧
    (cache_data [] 0 "prices" pricesFallback).find "prices"
      = some { timestamp := 0, data := pricesFallback } :=
  cache_put_then_get_valid [] "prices" pricesFallback 0 3600 (by decide) (by decide)

/-- C2: the validity check accepts a key iff an entry exists whose age
`now - timestamp` is strictly below the 24-hour TTL; an entry whose age
reaches the TTL is not served as a Hit by the fetcher owning the key, yet
the call does not delete it — some entry is still bound to the key
afterwards. -/
theorem cache_validity_iff_fresh (apiKey : Option String) (c : Cache) (now : Int)
    (ctx : ReqCtx) (src : SourceKind) (http : String → UpstreamOutcome) (e : CacheEntry)
    (hfind : c.find (sourceKey ctx src) = some e)
    (hexp : cacheDuration ≤ now - e.timestamp) :
    (∀ k : String, is_cache_valid c now k = true ↔
        ∃ e', c.find k = some e' ∧ now - e'.timestamp < cacheDuration) ∧
    (resolveSource apiKey c now ctx src http).status ≠ .hit ∧
    (∃ e', (resolveSource apiKey c now ctx src http).cache.find (sourceKey ctx src) = some e') := by
  have hiff : ∀ k : String, is_cache_valid c now k = true ↔
      ∃ e', c.find k = some e' ∧ now - e'.timestamp < cacheDuration := by
    intro k
    unfold is_cache_valid
    cases hf : c.find k with
    | none => simp
    | some e' => simp [hf]
  have hinvalid : is_cache_valid c now (sourceKey ctx src) = false := by
    unfold is_cache_valid
    rw [hfind]
    simpa using not_lt.mpr hexp
  rw [resolveSource_eq_fetchStep]
  refine ⟨hiff, ?_, ?_⟩
  · intro hhit
    rw [fetchStep_status_hit_iff] at hhit
    rw [hinvalid] at hhit
    simp at hhit
  · rcases fetchStep_cases (sourceKey ctx src) (sourceUrl apiKey ctx src)
        (fun m => fallbackData m src) c now http with
      ⟨_, he⟩ | ⟨_, s, d, _, he⟩ | ⟨_, m, _, he⟩ <;> simp only [he]
    · exact ⟨e, hfind⟩
    · exact ⟨{ timestamp := now, data := d },
        find_insert_self c (sourceKey ctx src) { timestamp := now, data := d }⟩
    · exact ⟨e, hfind⟩

theorem cache_validity_iff_fresh_witness :
    (∀ k : String, is_cache_valid [("prices", { timestamp := 0, data := pricesFallback })] 86400 k = true ↔
        ∃ e', Cache.find [("prices", { timestamp := 0, data := pricesFallback })] k = some e' ∧
          86400 - e'.timestamp < cacheDuration) ∧
    (resolveSource none [("prices", { timestamp := 0, data := pricesFallback })] 86400
        { region := "Tuscany", lat := "43.77", lon := "11.24" } .marketPrice
        (fun _ => .netError "down")).status ≠ .hit ∧
    (∃ e', (resolveSource none [("prices", { timestamp := 0, data := pricesFallback })] 86400
        { region := "Tuscany", lat := "43.77", lon := "11.24" } .marketPrice
        (fun _ => .netError "down")).cache.find
          (sourceKey { region := "Tuscany", lat := "43.77", lon := "11.24" } .marketPrice)
        = some e') :=
  cache_validity_iff_fresh none [("prices", { timestamp := 0, data := pricesFallback })] 86400
    { region := "Tuscany", lat := "43.77", lon := "11.24" } .marketPrice
    (fun _ => .netError "down") { timestamp := 0, data := pricesFallback } (by decide) (by decide)

/-- C1: a call resolving via the fallback leaves the cache exactly as it
was — the fallback is never written — so the immediately following call
for the same key (at any instant no earlier than the first) again misses
the cache and attempts the upstream call rather than serving a cached
fallback. -/
theorem fallback_leaves_cache_unchanged (apiKey : Option String) (c : Cache)
    (now now' : Int) (ctx : ReqCtx) (src : SourceKind)
    (http http' : String → UpstreamOutcome)
    (hfb : (resolveSource apiKey c now ctx src http).status = .fallback)
    (hle : now ≤ now') :
    (resolveSource apiKey c now ctx src http).cache = c ∧
    (resolveSource apiKey (resolveSource apiKey c now ctx src http).cache now' ctx src
        http').status ≠ .hit := by
  rw [resolveSource_eq_fetchStep] at hfb ⊢
  rw [resolveSource_eq_fetchStep]
  rcases fetchStep_cases (sourceKey ctx src) (sourceUrl apiKey ctx src)
      (fun m => fallbackData m src) c now http with
    ⟨hv, he⟩ | ⟨hv, s, d, hu, he⟩ | ⟨hv, m, hm, he⟩
  · rw [he] at hfb
    simp at hfb
  · rw [he] at hfb
    simp at hfb
  · constructor
    · simp only [he]
    · simp only [he]
      intro hhit
      rw [fetchStep_status_hit_iff] at hhit
      rw [is_cache_valid_false_mono c now now' _ hv hle] at hhit
      simp at hhit

theorem fallback_leaves_cache_unchanged_witness :
    (resolveSource none [] 0 { region := "Tuscany", lat := "43.77", lon := "11.24" }
        .sustainability (fun _ => .netError "down")).cache = ([] : Cache) ∧
    (resolveSource none (resolveSource none [] 0
        { region := "Tuscany", lat := "43.77", lon := "11.24" } .sustainability
        (fun _ => .netError "down")).cache 5
        { region := "Tuscany", lat := "43.77", lon := "11.24" } .sustainability
        (fun _ => .netError "still down")).status ≠ .hit :=
  fallback_leaves_cache_unchanged none [] 0 5
    { region := "Tuscany", lat := "43.77", lon := "11.24" } .sustainability
    (fun _ => .netError "down") (fun _ => .netError "still down") (by decide) (by decide)

/-- C5: when a first call fetched its payload from upstream (and hence
cached it), a second call for the same parameters whose instant is still
within the TTL of the write resolves as a Hit and returns the identical
payload, regardless of what the upstream would answer the second time. -/
theorem second_call_within_ttl_hits (apiKey : Option String) (c : Cache)
    (now₁ now₂ : Int) (ctx : ReqCtx) (src : SourceKind)
    (http₁ http₂ : String → UpstreamOutcome)
    (hf : (resolveSource apiKey c now₁ ctx src http₁).status = .fetched)
    (httl : now₂ - now₁ < cacheDuration) :
    (resolveSource apiKey (resolveSource apiKey c now₁ ctx src http₁).cache now₂ ctx src
        http₂).status = .hit ∧
    (resolveSource apiKey (resolveSource apiKey c now₁ ctx src http₁).cache now₂ ctx src
        http₂).data = (resolveSource apiKey c now₁ ctx src http₁).data := by
  rw [resolveSource_eq_fetchStep] at hf ⊢
  rw [resolveSource_eq_fetchStep]
  rcases fetchStep_cases (sourceKey ctx src) (sourceUrl apiKey ctx src)
      (fun m => fallbackData m src) c now₁ http₁ with
    ⟨hv, he⟩ | ⟨hv, s, d, hu, he⟩ | ⟨hv, m, hm, he⟩
  · rw [he] at hf
    simp at hf
  · have hfind : (cache_data c now₁ (sourceKey ctx src) d).find (sourceKey ctx src)
        = some { timestamp := now₁, data := d } :=
      find_insert_self c (sourceKey ctx src) { timestamp := now₁, data := d }
    have hvalid : is_cache_valid (cache_data c now₁ (sourceKey ctx src) d) now₂
        (sourceKey ctx src) = true := by
      unfold is_cache_valid
      rw [hfind]
      simpa using httl
    rcases fetchStep_cases (sourceKey ctx src) (sourceUrl apiKey ctx src)
        (fun m => fallbackData m src) (cache_data c now₁ (sourceKey ctx src) d) now₂ http₂ with
      ⟨hv₂, he₂⟩ | ⟨hv₂, s₂, d₂, hu₂, he₂⟩ | ⟨hv₂, m₂, hm₂, he₂⟩
    · simp only [he, he₂]
      refine ⟨trivial, ?_⟩
      unfold cacheData
      rw [hfind]
    · rw [hvalid] at hv₂
      simp at hv₂
    · rw [hvalid] at hv₂
      simp at hv₂
  · rw [he] at hf
    simp at hf

theorem second_call_within_ttl_hits_witness :
    (resolveSource none (resolveSource none [] 0
        { region := "Tuscany", lat := "43.77", lon := "11.24" } .marketPrice
        (fun _ => .response 200 (.ok (.obj [("Wheat", .obj [("price", .num 260),
          ("unit", .str "EUR/tonne")])])))).cache 3600
        { region := "Tuscany", lat := "43.77", lon := "11.24" } .marketPrice
        (fun _ => .netError "down")).status = .hit ∧
    (resolveSource none (resolveSource none [] 0
        { region := "Tuscany", lat := "43.77", lon := "11.24" } .marketPrice
        (fun _ => .response 200 (.ok (.obj [("Wheat", .obj [("price", .num 260),
          ("unit", .str "EUR/tonne")])])))).cache 3600
        { region := "Tuscany", lat := "43.77", lon := "11.24" } .marketPrice
        (fun _ => .netError "down")).data
      = (resolveSource none [] 0
        { region := "Tuscany", lat := "43.77", lon := "11.24" } .marketPrice
        (fun _ => .response 200 (.ok (.obj [("Wheat", .obj [("price", .num 260),
          ("unit", .str "EUR/tonne")])])))).data :=
  second_call_within_ttl_hits none [] 0 3600
    { region := "Tuscany", lat := "43.77", lon := "11.24" } .marketPrice
    (fun _ => .response 200 (.ok (.obj [("Wheat", .obj [("price", .num 260),
      ("unit", .str "EUR/tonne")])]))) (fun _ => .netError "down") (by decide) (by decide)

theorem get_weather_data_eq_fetchStep (apiKey : Option String) (c : Cache) (now : Int)
    (lat lon : String) (http : String → UpstreamOutcome) :
    get_weather_data apiKey c now lat lon http
      = fetchStep ("weather_" ++ lat ++ "_" ++ lon) (weatherUrl apiKey lat lon)
          weatherFallback c now http := rfl

theorem resolveSource_fallback_data (apiKey : Option String) (c : Cache) (now : Int)
    (ctx : ReqCtx) (src : SourceKind) (http : String → UpstreamOutcome)
    (h : (resolveSource apiKey c now ctx src http).status = .fallback) :
    ∃ m, (resolveSource apiKey c now ctx src http).data = fallbackData m src := by
  rw [resolveSource_eq_fetchStep] at h ⊢
  rcases fetchStep_cases (sourceKey ctx src) (sourceUrl apiKey ctx src)
      (fun m => fallbackData m src) c now http with
    ⟨_, he⟩ | ⟨_, _, _, _, he⟩ | ⟨_, m, _, he⟩
  · rw [he] at h
    simp at h
  · rw [he] at h
    simp at h
  · exact ⟨m, by simp only [he]⟩

/-- C3 is false on the code: the fetchers never inspect the HTTP status
code (`requests.get` does not raise on a non-success status and
`raise_for_status` is never called). A weather upstream answering HTTP 500
with a JSON error body is parsed, returned as data — it lacks the
fallback's `temp` field — and written to the cache for the key. -/
theorem weather_http500_body_cached_not_fallback :
    (get_weather_data (some "KEY") [] 0 "48.79" "11.50"
        (fun _ => .response 500 (.ok (.obj [("cod", .num 500),
          ("message", .str "Internal Server Error")])))).status = .fetched ∧
    (get_weather_data (some "KEY") [] 0 "48.79" "11.50"
        (fun _ => .response 500 (.ok (.obj [("cod", .num 500),
          ("message", .str "Internal Server Error")])))).data.getField "temp" = none ∧
    (get_weather_data (some "KEY") [] 0 "48.79" "11.50"
        (fun _ => .response 500 (.ok (.obj [("cod", .num 500),
          ("message", .str "Internal Server Error")])))).cache.find "weather_48.79_11.50"
      = some { timestamp := 0, data := .obj [("cod", .num 500),
          ("message", .str "Internal Server Error")] } := by
  decide

/-- C3 amended: a fetcher treats an upstream interaction as an error iff an
exception is raised — a network failure or a body that fails to parse as
JSON; the HTTP status code is never inspected, so two responses differing
only in status code (e.g. 200 vs 500) produce identical results, and a
non-success status whose body parses is cached and returned like a
success. -/
theorem fetchers_ignore_http_status (apiKey : Option String) (c : Cache) (now : Int)
    (ctx : ReqCtx) (src : SourceKind) (s₁ s₂ : Nat) (b : JsonBody) :
    resolveSource apiKey c now ctx src (fun _ => .response s₁ b)
      = resolveSource apiKey c now ctx src (fun _ => .response s₂ b) := by
  rw [resolveSource_eq_fetchStep, resolveSource_eq_fetchStep]
  unfold fetchStep
  cases b <;> rfl

/-- C7 is contradicted by the code: on an upstream error the sustainability
fetcher returns the three metrics nested under a single top-level
`sustainability_metrics` key rather than at top level, so the code's own
callers — which read `soil_health`, `water_efficiency` and `biodiversity`
directly at top level — find none of them in the fallback. -/
theorem fsdn_fallback_fields_nested :
    (get_fsdn_data [] 0 "Bavaria" (fun _ => .netError "connection refused")).status
      = .fallback ∧
    (get_fsdn_data [] 0 "Bavaria"
        (fun _ => .netError "connection refused")).data.getField "soil_health" = none ∧
    (get_fsdn_data [] 0 "Bavaria"
        (fun _ => .netError "connection refused")).data.getField "sustainability_metrics"
      = some (.obj [("soil_health", .str "medium"), ("water_efficiency", .str "high"),
          ("biodiversity", .str "medium")]) := by
  decide

/-- C6: each fetcher reads and writes only its own cache key: every other
key's binding is untouched by a call, and the status and payload of a
fetch for any source owning a different key are the same after the call as
they would have been before it — whether the call failed or succeeded. -/
theorem fetch_touches_only_own_key (apiKey : Option String) (c : Cache) (now : Int)
    (ctx : ReqCtx) (src : SourceKind) (http : String → UpstreamOutcome) :
    (∀ k : String, k ≠ sourceKey ctx src →
       (resolveSource apiKey c now ctx src http).cache.find k = c.find k) ∧
    (∀ (now₂ : Int) (ctx₂ : ReqCtx) (src₂ : SourceKind) (http₂ : String → UpstreamOutcome),
       sourceKey ctx₂ src₂ ≠ sourceKey ctx src →
       (resolveSource apiKey (resolveSource apiKey c now ctx src http).cache now₂ ctx₂ src₂
           http₂).status = (resolveSource apiKey c now₂ ctx₂ src₂ http₂).status ∧
       (resolveSource apiKey (resolveSource apiKey c now ctx src http).cache now₂ ctx₂ src₂
           http₂).data = (resolveSource apiKey c now₂ ctx₂ src₂ http₂).data) := by
  have hframe : ∀ k : String, k ≠ sourceKey ctx src →
      (resolveSource apiKey c now ctx src http).cache.find k = c.find k := by
    intro k hk
    rw [resolveSource_eq_fetchStep]
    exact fetchStep_frame (sourceKey ctx src) (sourceUrl apiKey ctx src)
      (fun m => fallbackData m src) c now http k hk
  refine ⟨hframe, ?_⟩
  intro now₂ ctx₂ src₂ http₂ hne
  rw [resolveSource_eq_fetchStep apiKey ((resolveSource apiKey c now ctx src http).cache)
      now₂ ctx₂ src₂ http₂,
    resolveSource_eq_fetchStep apiKey c now₂ ctx₂ src₂ http₂]
  exact fetchStep_congr (sourceKey ctx₂ src₂) (sourceUrl apiKey ctx₂ src₂)
    (fun m => fallbackData m src₂) ((resolveSource apiKey c now ctx src http).cache) c now₂
    http₂ (hframe (sourceKey ctx₂ src₂) hne)

theorem fetch_touches_only_own_key_witness :
    ((resolveSource none [] 0 { region := "Tuscany", lat := "43.77", lon := "11.24" }
        .sustainability (fun _ => .netError "down")).cache.find "prices"
      = Cache.find [] "prices") ∧
    ((resolveSource none (resolveSource none [] 0
          { region := "Tuscany", lat := "43.77", lon := "11.24" } .sustainability
          (fun _ => .netError "down")).cache 7
        { region := "Tuscany", lat := "43.77", lon := "11.24" } .marketPrice
        (fun _ => .response 200 (.ok pricesFallback))).status
      = (resolveSource none [] 7 { region := "Tuscany", lat := "43.77", lon := "11.24" }
          .marketPrice (fun _ => .response 200 (.ok pricesFallback))).status ∧
     (resolveSource none (resolveSource none [] 0
          { region := "Tuscany", lat := "43.77", lon := "11.24" } .sustainability
          (fun _ => .netError "down")).cache 7
        { region := "Tuscany", lat := "43.77", lon := "11.24" } .marketPrice
        (fun _ => .response 200 (.ok pricesFallback))).data
      = (resolveSource none [] 7 { region := "Tuscany", lat := "43.77", lon := "11.24" }
          .marketPrice (fun _ => .response 200 (.ok pricesFallback))).data) :=
  ⟨(fetch_touches_only_own_key none [] 0
      { region := "Tuscany", lat := "43.77", lon := "11.24" } .sustainability
      (fun _ => .netError "down")).1 "prices" (by decide),
   (fetch_touches_only_own_key none [] 0
      { region := "Tuscany", lat := "43.77", lon := "11.24" } .sustainability
      (fun _ => .netError "down")).2 7
      { region := "Tuscany", lat := "43.77", lon := "11.24" } .marketPrice
      (fun _ => .response 200 (.ok pricesFallback)) (by decide)⟩

/-- C8: a missing weather API credential is not detected or rejected
anywhere — the fetcher interpolates Python's rendering of `None` into the
request URL (the same URL as for the literal key string `None`) and still
performs the upstream call on every cache miss; when that call fails the
request silently resolves to the fallback payload, nothing is cached, and
any later request repeats the same upstream attempt, exactly as for a
transient failure. -/
theorem missing_api_key_falls_back_per_request (c : Cache) (now now' : Int)
    (lat lon m : String) (http http' : String → UpstreamOutcome)
    (hmiss : is_cache_valid c now ("weather_" ++ lat ++ "_" ++ lon) = false)
    (hfail : (http (weatherUrl none lat lon)).errMsg = some m)
    (hle : now ≤ now') :
    weatherUrl none lat lon = weatherUrl (some "None") lat lon ∧
    (get_weather_data none c now lat lon http).status = .fallback ∧
    (get_weather_data none c now lat lon http).data = weatherFallback m ∧
    (get_weather_data none c now lat lon http).cache = c ∧
    (get_weather_data none (get_weather_data none c now lat lon http).cache now' lat lon
        http').status ≠ .hit := by
  simp only [get_weather_data_eq_fetchStep]
  rcases fetchStep_cases ("weather_" ++ lat ++ "_" ++ lon) (weatherUrl none lat lon)
      weatherFallback c now http with
    ⟨hv, he⟩ | ⟨hv, s, d, hu, he⟩ | ⟨hv, m', hm, he⟩
  · rw [hmiss] at hv
    simp at hv
  · rw [hu] at hfail
    simp [UpstreamOutcome.errMsg] at hfail
  · have hmm : m' = m := by
      rw [hfail] at hm
      exact (Option.some.inj hm).symm
    subst hmm
    refine ⟨rfl, ?_, ?_, ?_, ?_⟩
    · simp only [he]
    · simp only [he]
    · simp only [he]
    · simp only [he]
      intro hhit
      rw [fetchStep_status_hit_iff] at hhit
      rw [is_cache_valid_false_mono c now now' _ hmiss hle] at hhit
      simp at hhit

theorem missing_api_key_falls_back_per_request_witness :
    weatherUrl none "48.79" "11.50" = weatherUrl (some "None") "48.79" "11.50" ∧
    (get_weather_data none [] 0 "48.79" "11.50"
        (fun _ => .netError "401 Unauthorized")).status = .fallback ∧
    (get_weather_data none [] 0 "48.79" "11.50"
        (fun _ => .netError "401 Unauthorized")).data = weatherFallback "401 Unauthorized" ∧
    (get_weather_data none [] 0 "48.79" "11.50"
        (fun _ => .netError "401 Unauthorized")).cache = ([] : Cache) ∧
    (get_weather_data none (get_weather_data none [] 0 "48.79" "11.50"
        (fun _ => .netError "401 Unauthorized")).cache 60 "48.79" "11.50"
        (fun _ => .netError "401 Unauthorized")).status ≠ .hit :=
  missing_api_key_falls_back_per_request [] 0 60 "48.79" "11.50" "401 Unauthorized"
    (fun _ => .netError "401 Unauthorized") (fun _ => .netError "401 Unauthorized")
    (by decide) (by decide) (by decide)

/-- C4: one aggregation call returns exactly one (status, payload) entry
per requested source, in request order, and every entry is the genuine
result of that source's fetcher on the cache state it was handed — the
call is total, so every upstream outcome yields a structurally valid Hit,
Fetched or Fallback payload, and a Fallback entry carries the source's
fixed fallback payload. -/
theorem aggregate_one_result_per_source (apiKey : Option String) (c : Cache) (now : Int)
    (ctx : ReqCtx) (http : String → UpstreamOutcome) (srcs : List SourceKind) :
    ((aggregate apiKey c now ctx http srcs).bundle.map Prod.fst = srcs) ∧
    (∀ p : SourceKind × FetchStatus × JsonVal,
       p ∈ (aggregate apiKey c now ctx http srcs).bundle →
       (∃ c' : Cache, p.2.1 = (resolveSource apiKey c' now ctx p.1 http).status ∧
          p.2.2 = (resolveSource apiKey c' now ctx p.1 http).data) ∧
       (p.2.1 = .fallback → ∃ m, p.2.2 = fallbackData m p.1)) := by
  induction srcs generalizing c with
  | nil =>
      refine ⟨rfl, ?_⟩
      intro p hp
      simp [aggregate] at hp
  | cons src rest ih =>
      refine ⟨?_, ?_⟩
      · simp only [aggregate, List.map_cons]
        rw [(ih ((resolveSource apiKey c now ctx src http).cache)).1]
      · intro p hp
        simp only [aggregate, List.mem_cons] at hp
        rcases hp with rfl | hp
        · refine ⟨⟨c, rfl, rfl⟩, ?_⟩
          intro hfb
          exact resolveSource_fallback_data apiKey c now ctx src http hfb
        · exact (ih ((resolveSource apiKey c now ctx src http).cache)).2 p hp

theorem aggregate_one_result_per_source_witness :
    ((aggregate none [] 0 { region := "Tuscany", lat := "43.77", lon := "11.24" }
        (fun _ => .response 200 (.ok pricesFallback)) [SourceKind.marketPrice]).bundle.map
        Prod.fst = [SourceKind.marketPrice]) ∧
    ((∃ c' : Cache, FetchStatus.fetched
          = (resolveSource none c' 0 { region := "Tuscany", lat := "43.77", lon := "11.24" }
              .marketPrice (fun _ => .response 200 (.ok pricesFallback))).status ∧
        pricesFallback
          = (resolveSource none c' 0 { region := "Tuscany", lat := "43.77", lon := "11.24" }
              .marketPrice (fun _ => .response 200 (.ok pricesFallback))).data) ∧
     (FetchStatus.fetched = .fallback →
        ∃ m, pricesFallback = fallbackData m SourceKind.marketPrice)) :=
  ⟨(aggregate_one_result_per_source none [] 0
      { region := "Tuscany", lat := "43.77", lon := "11.24" }
      (fun _ => .response 200 (.ok pricesFallback)) [SourceKind.marketPrice]).1,
   (aggregate_one_result_per_source none [] 0
      { region := "Tuscany", lat := "43.77", lon := "11.24" }
      (fun _ => .response 200 (.ok pricesFallback)) [SourceKind.marketPrice]).2
      (SourceKind.marketPrice, FetchStatus.fetched, pricesFallback) (by decide)⟩

/-- C9 is false on the code: the per-source fetches are not dispatched as
concurrent tasks — the call sites issue one blocking `asyncio.run` call
per source, so the first source's fetch completes before the second is
dispatched, and the trace of an aggregation over two or more sources is
never a concurrent fan-out-join. -/
theorem aggregate_trace_not_fan_out_join :
    fanOutJoin false (aggregate none [] 0
        { region := "Bavaria", lat := "48.79", lon := "11.50" } (fun _ => .netError "down")
        [SourceKind.sustainability, SourceKind.marketPrice, SourceKind.weather]).trace
      = false := by
  decide

/-- C9 amended: within one aggregation call the per-source fetches run
strictly sequentially in request order — each fetch is dispatched only
after the previous one completes — and every dispatched fetch completes
before the bundle is returned. -/
theorem aggregate_trace_sequential (apiKey : Option String) (c : Cache) (now : Int)
    (ctx : ReqCtx) (http : String → UpstreamOutcome) (srcs : List SourceKind) :
    (aggregate apiKey c now ctx http srcs).trace
      = (srcs.map (fun s => [Ev.dispatch s, Ev.complete s])).flatten := by
  induction srcs generalizing c with
  | nil => rfl
  | cons s rest ih => simp [aggregate, ih]

end PrecisionFarm
